import Mathlib

/-!
Shallow embedding of the asset taxonomy remapping tool
(`update-assets.js`): data model, term-identity map construction,
per-asset remapping, report-row construction, confirmation gate and
commit loop, together with theorems about the pipeline's behaviour.

JavaScript values are modelled as follows: a possibly-absent string
property is `Option String` (with `none` for `undefined`); JavaScript
truthiness of such a property is `none` and the empty string being
falsy; a `Map` is an association list with `set`/`get` operations that
mirror `Map.prototype.set` and `Map.prototype.get`; console output is
collected into explicit lists of messages; network effects (the PUT
requests of the commit loop) are recorded as a list of
(asset id, payload) requests, with a failure oracle `fails : Nat → Bool`
standing for which requests the transport rejects.
-/

namespace AssetTaxonomyRemap

/-- Truthiness of a possibly-absent JavaScript string:
`undefined` and the empty string are falsy. -/
def truthyOpt : Option String → Bool
  | none => false
  | some s => !s.isEmpty

mutual
/-- A taxonomy term: `{ id, codename, name, terms }` where `terms` holds
the nested child terms.  The nested list of children is represented by
the mutually defined `TermList` (isomorphic to `List Term`), which lets
the tree traversal below be structurally recursive. -/
inductive Term : Type where
  | mk : String → String → String → TermList → Term
/-- A list of taxonomy terms, as nested under a term or a group. -/
inductive TermList : Type where
  | nil : TermList
  | cons : Term → TermList → TermList
end

def Term.id : Term → String
  | .mk i _ _ _ => i

def Term.codename : Term → String
  | .mk _ c _ _ => c

def Term.name : Term → String
  | .mk _ _ n _ => n

def Term.children : Term → TermList
  | .mk _ _ _ ts => ts

/-- Build a `TermList` from a plain list (used to write fixtures). -/
def termListOf : List Term → TermList
  | [] => .nil
  | t :: rest => .cons t (termListOf rest)

/-- A taxonomy group: the root container of a term tree.  The script
only reads `group.terms`. -/
structure TaxonomyGroup where
  terms : TermList

/-- One entry of an element's `value` list: `{ id: <term id> }`.  The
`id` property may be absent (the script guards with `if (!v.id)`). -/
structure ValueEntry where
  id : Option String
deriving DecidableEq, Inhabited

/-- The `element` sub-object of an asset element: `{ id: <element id> }`. -/
structure ElementRef where
  id : String
deriving DecidableEq, Inhabited

/-- One element of an asset: `{ element: { id }, value: [...] }`. -/
structure AssetElement where
  element : ElementRef
  value : List ValueEntry
deriving DecidableEq, Inhabited

/-- An asset: `{ id, codename, url, elements }`. -/
structure Asset where
  id : String
  codename : String
  url : String
  elements : List AssetElement
deriving DecidableEq, Inhabited

mutual
/-- The per-term part of `flattenTerms`' inner `recurse`: push the term
itself, then its flattened descendants. -/
def flattenOne : Term → List Term
  | .mk i c n ts => .mk i c n ts :: flattenInto ts
/-- `flattenTerms`' inner `recurse`: depth-first preorder collection of
every term node.  `recurse` pushes each term and then descends into its
children before moving to the next sibling. -/
def flattenInto : TermList → List Term
  | .nil => []
  | .cons t rest => flattenOne t ++ flattenInto rest
end

/-- `flattenTerms(taxonomyGroups)`: run `recurse` over each group's
terms in order, accumulating into one flat list. -/
def flattenTerms (groups : List TaxonomyGroup) : List Term :=
  (groups.map (fun g => flattenInto g.terms)).foldr (· ++ ·) []

/-- `Map.prototype.set`: overwrite the value at an existing key in
place, otherwise append the new binding at the end. -/
def mapSet : List (String × String) → String → String → List (String × String)
  | [], k, v => [(k, v)]
  | p :: rest, k, v =>
    if p.1 == k then (k, v) :: rest else p :: mapSet rest k v

/-- `Map.prototype.get`: the value bound to the key, `undefined`
(`none`) when absent. -/
def mapGet (m : List (String × String)) (k : String) : Option String :=
  (m.find? (fun p => p.1 == k)).map (fun p => p.2)

/-- One iteration of the `termIdMap` construction loop: find the first
target term with exactly equal codename and record
`sourceId -> targetId` when found. -/
def termIdStep (targetTerms : List Term) (m : List (String × String))
    (sTerm : Term) : List (String × String) :=
  match targetTerms.find? (fun t => t.codename == sTerm.codename) with
  | some tTerm => mapSet m sTerm.id tTerm.id
  | none => m

/-- Construction of `termIdMap`: fold the per-source-term step over the
flattened source terms, starting from the empty map. -/
def buildTermIdMap (sourceTerms targetTerms : List Term) : List (String × String) :=
  sourceTerms.foldl (termIdStep targetTerms) []

/-- `getElementIdFromAsset(asset)`: the id of the first element whose
`element.id` is truthy, else `null`.  The argument is an `Option Asset`
because the script applies it to `assets[0]`, which is `undefined` for
an empty asset list; dereferencing `undefined.elements` throws, which is
the `Except.error` case. -/
def getElementIdFromAsset : Option Asset → Except String (Option String)
  | none => .error "TypeError: cannot read properties of undefined"
  | some a =>
    .ok ((a.elements.find? (fun e => !e.element.id.isEmpty)).map
      (fun e => e.element.id))

/-- The warning printed when a term id has no binding in the term
identity map (`Could not remap term with ID ... for asset ...`). -/
def remapWarn (termId assetCodename : String) : String :=
  "Could not remap term with ID " ++ termId ++ " for asset " ++
    assetCodename ++ ", skipping this term."

/-- The `newValues` computation: map each value entry through the term
identity map, dropping entries with a falsy id silently and entries with
no (truthy) binding with a warning; `.filter(Boolean)` removes the
dropped entries.  Returns the remapped list and the warnings in order. -/
def remapValues (m : List (String × String)) (assetCodename : String) :
    List ValueEntry → List ValueEntry × List String
  | [] => ([], [])
  | v :: vs =>
    let rest := remapValues m assetCodename vs
    match v.id with
    | none => rest
    | some s =>
      if s.isEmpty then rest
      else
        match mapGet m s with
        | some t =>
          if t.isEmpty then (rest.1, remapWarn s assetCodename :: rest.2)
          else (⟨some t⟩ :: rest.1, rest.2)
        | none => (rest.1, remapWarn s assetCodename :: rest.2)

/-- The expected action of `newValues` on a single entry: `some` of the
remapped entry when the id is truthy and has a truthy binding, `none`
(dropped) otherwise. -/
def remapOne (m : List (String × String)) (v : ValueEntry) : Option ValueEntry :=
  match v.id with
  | none => none
  | some s =>
    if s.isEmpty then none
    else
      match mapGet m s with
      | some t => if t.isEmpty then none else some ⟨some t⟩
      | none => none

/-- The `oldElement` lookup with its `|| { element: { id }, value: [] }`
default: the source (or target) asset's element with the given id, or an
empty-valued stand-in. -/
def oldElementOf (oldId : String) (a : Asset) : AssetElement :=
  (a.elements.find? (fun e => e.element.id == oldId)).getD ⟨⟨oldId⟩, []⟩

/-- The `newElement` built for the update: the target element id with
the remapped values. -/
def newElementOf (oldId newId : String) (m : List (String × String))
    (a : Asset) : AssetElement :=
  ⟨⟨newId⟩, (remapValues m a.codename (oldElementOf oldId a).value).1⟩

/-- `updatedAssetPayload`: a shallow copy of the target asset whose
`elements` list replaces every element with id `NEW_ELEMENT_ID` by the
new element and keeps every other element as is. -/
def payloadOf (oldId newId : String) (m : List (String × String))
    (a tgt : Asset) : Asset :=
  { tgt with
    elements := tgt.elements.map
      (fun el =>
        if el.element.id == newId then newElementOf oldId newId m a else el) }

/-- `.filter(Boolean)` over a list of string-or-null values: keep the
truthy strings. -/
def filterTruthy : List (Option String) → List String
  | [] => []
  | none :: rest => filterTruthy rest
  | some s :: rest =>
    if s.isEmpty then filterTruthy rest else s :: filterTruthy rest

/-- The taxonomy-name collection pattern
(`.map(v => term ? term.name : null).filter(Boolean)`): for each value
entry, the name of the first term whose id equals the entry's id. -/
def collectNames (terms : List Term) (vals : List ValueEntry) : List String :=
  filterTruthy (vals.map (fun v =>
    (terms.find? (fun t => v.id == some t.id)).map Term.name))

/-- One row of `reportRows`: the source/target pair, the three
name lists displayed by the report, and the exact update payload. -/
structure ReportRow where
  sourceAsset : Asset
  targetAsset : Asset
  sourceTaxonomyNames : List String
  existingTargetTaxonomyNames : List String
  targetTaxonomyNamesPending : List String
  updatedAssetPayload : Asset
deriving DecidableEq, Inhabited

/-- The row pushed onto `reportRows` for a paired (source, target)
asset that passed the empty-value skip. -/
def rowOf (oldId newId : String) (m : List (String × String))
    (sourceTerms targetTerms : List Term) (a tgt : Asset) : ReportRow :=
  { sourceAsset := a
    targetAsset := tgt
    sourceTaxonomyNames := collectNames sourceTerms (oldElementOf oldId a).value
    existingTargetTaxonomyNames :=
      collectNames targetTerms (oldElementOf oldId tgt).value
    targetTaxonomyNamesPending :=
      collectNames targetTerms (newElementOf oldId newId m a).value
    updatedAssetPayload := payloadOf oldId newId m a tgt }

/-- The warning printed when a source asset has no target counterpart. -/
def noTargetWarn (codename : String) : String :=
  "No target asset matching source codename " ++ codename ++ ", skipping."

/-- One iteration of the per-source-asset loop: pair by codename
(warn and skip when no target matches), skip when the source old element
has no values, otherwise produce the report row and the remap warnings. -/
def processAsset (oldId newId : String) (m : List (String × String))
    (sourceTerms targetTerms : List Term) (assetsTarget : List Asset)
    (a : Asset) : Option ReportRow × List String :=
  match assetsTarget.find? (fun t => t.codename == a.codename) with
  | none => (none, [noTargetWarn a.codename])
  | some tgt =>
    if (oldElementOf oldId a).value.isEmpty then (none, [])
    else
      (some (rowOf oldId newId m sourceTerms targetTerms a tgt),
        (remapValues m a.codename (oldElementOf oldId a).value).2)

/-- The whole per-asset loop: fold `processAsset` over the source
assets, collecting the produced rows in order and the warnings. -/
def buildRows (oldId newId : String) (m : List (String × String))
    (sourceTerms targetTerms : List Term) (assetsTarget : List Asset) :
    List Asset → List ReportRow × List String
  | [] => ([], [])
  | a :: rest =>
    let pr := processAsset oldId newId m sourceTerms targetTerms assetsTarget a
    let br := buildRows oldId newId m sourceTerms targetTerms assetsTarget rest
    (match pr.1 with
     | some r => r :: br.1
     | none => br.1,
     pr.2 ++ br.2)

/-- `String.prototype.toLowerCase`, modelled character-wise over the
string's characters. -/
def strToLower (s : String) : String :=
  ⟨s.data.map Char.toLower⟩

/-- The confirmation gate: `answer.toLowerCase() !== 'y'` aborts, so the
commit phase runs exactly when the lowercased answer is `y`. -/
def confirmProceeds (answer : String) : Bool :=
  strToLower answer == "y"

/-- `Aborted by user. No assets were updated.` -/
def abortMessage : String := "Aborted by user. No assets were updated."

def successMessage (codename : String) : String :=
  "Successfully updated asset " ++ codename

def failureMessage (codename : String) : String :=
  "Failed to update asset " ++ codename

/-- The commit loop over the report rows: each row issues one PUT of its
stored payload to its target asset's id; a failure (decided by the
transport oracle on the row's position) is caught and logged, and the
loop continues.  Returns the issued requests and the per-asset
(source codename, succeeded) outcomes, both in order. -/
def commitLoop (fails : Nat → Bool) : List ReportRow → Nat →
    List (String × Asset) × List (String × Bool)
  | [], _ => ([], [])
  | r :: rs, k =>
    let rest := commitLoop fails rs (k + 1)
    ((r.targetAsset.id, r.updatedAssetPayload) :: rest.1,
      (r.sourceAsset.codename, !fails k) :: rest.2)

/-- Observable outcome of one run: the process exit code, whether the
HTML report was written, the report rows, the PUT requests issued, the
per-asset outcomes, the final-phase log messages, and the warnings. -/
structure RunResult where
  exitCode : Nat
  reportWritten : Bool
  reportRows : List ReportRow
  requests : List (String × Asset)
  outcomes : List (String × Bool)
  messages : List String
  warnings : List String
deriving DecidableEq

/-- The outcome of a fatal error before the report is written: exit
code 1, nothing reported, nothing updated. -/
def fatalResult : RunResult := ⟨1, false, [], [], [], [], []⟩

/-- The phase after the report is written: prompt, then either commit
every row or abort with exit code 0 and the abort log. -/
def afterReport (rows : List ReportRow) (warns : List String)
    (answer : String) (fails : Nat → Bool) : RunResult :=
  if confirmProceeds answer then
    let rq := commitLoop fails rows 0
    ⟨0, true, rows, rq.1, rq.2,
      rq.2.map (fun p =>
        if p.2 then successMessage p.1 else failureMessage p.1),
      warns⟩
  else
    ⟨0, true, rows, [], [], [abortMessage], warns⟩

/-- The whole `main` pipeline after the fetches, as a function of the
fetched data, the operator's answer and the transport oracle: extract
the element ids from the first asset of each environment (a fatal error
when either throws or either id is falsy), flatten the taxonomies, build
the term identity map, build the report rows, then run the confirmation
gate and the commit loop. -/
def runPipeline (assetsSource assetsTarget : List Asset)
    (taxSource taxTarget : List TaxonomyGroup)
    (answer : String) (fails : Nat → Bool) : RunResult :=
  match getElementIdFromAsset assetsSource.head? with
  | .error _ => fatalResult
  | .ok oldId? =>
    match getElementIdFromAsset assetsTarget.head? with
    | .error _ => fatalResult
    | .ok newId? =>
      match oldId?, newId? with
      | some oldId, some newId =>
        if oldId.isEmpty || newId.isEmpty then fatalResult
        else
          let sourceTerms := flattenTerms taxSource
          let targetTerms := flattenTerms taxTarget
          let m := buildTermIdMap sourceTerms targetTerms
          let br := buildRows oldId newId m sourceTerms targetTerms
            assetsTarget assetsSource
          afterReport br.1 br.2 answer fails
      | _, _ => fatalResult

/-! ### Concrete fixtures

Small concrete environments used by the witnesses and counterexamples
below.  Term ids are environment-local (`s…` source, `t…` target);
assets pair by codename. -/

def c1TaxSource : List TaxonomyGroup := [⟨termListOf [Term.mk "s1" "red" "Red" .nil]⟩]

def c1Source : Asset :=
  ⟨"src-asset-1", "photo", "u", [⟨⟨"e1"⟩, [⟨some "s1"⟩]⟩]⟩

def c1Target : Asset := ⟨"tgt-asset-1", "photo", "u", [⟨⟨"e1"⟩, []⟩]⟩

def c2TaxSource : List TaxonomyGroup := [⟨termListOf [Term.mk "s1" "red" "Red" .nil]⟩]

def c2TaxTarget : List TaxonomyGroup := [⟨termListOf [Term.mk "t1" "red" "Red" .nil]⟩]

def c2Source : Asset :=
  ⟨"src-asset-2", "banner", "u", [⟨⟨"e1"⟩, [⟨some "s1"⟩]⟩]⟩

def c2Target : Asset :=
  ⟨"tgt-asset-2", "banner", "u",
    [⟨⟨"e1"⟩, [⟨some "t8"⟩]⟩, ⟨⟨"e2"⟩, [⟨some "t7"⟩]⟩]⟩

def c2Row : ReportRow :=
  rowOf "e1" "e1" (buildTermIdMap (flattenTerms c2TaxSource)
      (flattenTerms c2TaxTarget))
    (flattenTerms c2TaxSource) (flattenTerms c2TaxTarget) c2Source c2Target

def c3TaxSource : List TaxonomyGroup :=
  [⟨termListOf [Term.mk "s1" "red" "Red" .nil, Term.mk "s2" "blue" "Blue" .nil]⟩]

def c3TaxTarget : List TaxonomyGroup :=
  [⟨termListOf [Term.mk "t1" "red" "Red" .nil, Term.mk "t2" "blue" "Blue" .nil]⟩]

def c3Source : Asset :=
  ⟨"src-asset-3", "photo3", "u",
    [⟨⟨"e1"⟩, [⟨some "s1"⟩]⟩, ⟨⟨"e2"⟩, [⟨some "s2"⟩]⟩]⟩

def c3SourceExtra : Asset :=
  ⟨"src-asset-3", "photo3", "u",
    [⟨⟨"e1"⟩, [⟨some "s1"⟩]⟩, ⟨⟨"e2"⟩, [⟨some "s2"⟩]⟩,
      ⟨⟨"e3"⟩, [⟨some "s1"⟩]⟩]⟩

def c3Target : Asset :=
  ⟨"tgt-asset-3", "photo3", "u",
    [⟨⟨"e1"⟩, []⟩, ⟨⟨"e2"⟩, [⟨some "t9"⟩]⟩]⟩

def c4Row : ReportRow :=
  ⟨⟨"sa4", "hero", "u", []⟩, ⟨"ta4", "hero", "u", []⟩, [], [], [],
    ⟨"ta4", "hero", "u", [⟨⟨"e1"⟩, [⟨some "t1"⟩]⟩]⟩⟩

def c5TaxSource : List TaxonomyGroup := [⟨termListOf [Term.mk "s1" "red" "Red" .nil]⟩]

def c5TaxTarget : List TaxonomyGroup := [⟨termListOf [Term.mk "t1" "red" "Red" .nil]⟩]

def c5Source : Asset :=
  ⟨"src-asset-5", "logo", "u", [⟨⟨"e1"⟩, [⟨some "s1"⟩]⟩]⟩

def c5Target : Asset := ⟨"tgt-asset-5", "logo", "u", [⟨⟨"e1"⟩, []⟩]⟩

def c6SourceTerms : List Term :=
  [Term.mk "s1" "red" "Red" .nil, Term.mk "s2" "legacy" "Legacy" .nil]

def c6TargetTerms : List Term := [Term.mk "t1" "red" "Red" .nil]

def c9Source : Asset :=
  ⟨"src-asset-9", "pic", "u", [⟨⟨"e1"⟩, [⟨some "s1"⟩]⟩]⟩

def c9Target : Asset :=
  ⟨"tgt-asset-9", "pic", "u",
    [⟨⟨"e1"⟩, [⟨some "t8"⟩]⟩, ⟨⟨"e2"⟩, []⟩]⟩

def c9Row : ReportRow :=
  rowOf "e1" "e1" [("s1", "t1")] [] [] c9Source c9Target

/-! ### Helper lemmas -/

theorem commitLoop_fst (fails : Nat → Bool) (rows : List ReportRow) :
    ∀ i : Nat,
      (commitLoop fails rows i).1 =
        rows.map (fun r => (r.targetAsset.id, r.updatedAssetPayload)) := by
  induction rows with
  | nil => intro i; rfl
  | cons r rs ih => intro i; simp [commitLoop, ih (i + 1)]

theorem commitLoop_snd_get? (fails : Nat → Bool) (rows : List ReportRow) :
    ∀ i k : Nat,
      (commitLoop fails rows i).2.get? k =
        (rows.get? k).map
          (fun r => (r.sourceAsset.codename, !fails (i + k))) := by
  induction rows with
  | nil => intro i k; cases k <;> rfl
  | cons r rs ih =>
    intro i k
    cases k with
    | zero => rfl
    | succ k =>
      have := ih (i + 1) k
      simpa [commitLoop, Nat.add_assoc, Nat.add_comm 1 k] using this

theorem mapGet_mapSet_self (m : List (String × String)) (k v : String) :
    mapGet (mapSet m k v) k = some v := by
  induction m with
  | nil => simp [mapSet, mapGet]
  | cons p rest ih =>
    by_cases h : (p.1 == k) = true
    · simp [mapSet, h, mapGet]
    · simp only [Bool.not_eq_true] at h
      simp [mapSet, h, mapGet, List.find?] at ih ⊢
      exact ih

theorem mapGet_mapSet_ne (m : List (String × String)) (k v k' : String)
    (hne : k' ≠ k) : mapGet (mapSet m k v) k' = mapGet m k' := by
  have hbeq : (k == k') = false := by
    simpa using fun h => hne (by simpa using h.symm)
  induction m with
  | nil => simp [mapSet, mapGet, List.find?, hbeq]
  | cons p rest ih =>
    by_cases h : (p.1 == k) = true
    · have hp : p.1 = k := by simpa using h
      simp [mapSet, h, mapGet, List.find?, hbeq, hp]
    · simp only [Bool.not_eq_true] at h
      by_cases h' : (p.1 == k') = true
      · simp [mapSet, h, mapGet, List.find?, h']
      · simp only [Bool.not_eq_true] at h'
        simp [mapSet, h, mapGet, List.find?, h'] at ih ⊢
        exact ih

theorem foldl_termIdStep_untouched (targetTerms : List Term) :
    ∀ (S : List Term) (m0 : List (String × String)) (k : String),
      (∀ s ∈ S, s.id ≠ k) →
      mapGet (S.foldl (termIdStep targetTerms) m0) k = mapGet m0 k := by
  intro S
  induction S with
  | nil => intro m0 k _; rfl
  | cons s0 rest ih =>
    intro m0 k hk
    have h0 : s0.id ≠ k := hk s0 (List.mem_cons_self s0 rest)
    have hrest : ∀ s ∈ rest, s.id ≠ k :=
      fun s hs => hk s (List.mem_cons_of_mem s0 hs)
    simp only [List.foldl_cons]
    rw [ih (termIdStep targetTerms m0 s0) k hrest]
    unfold termIdStep
    cases targetTerms.find? (fun t => t.codename == s0.codename) with
    | none => rfl
    | some t => exact mapGet_mapSet_ne m0 s0.id t.id k (Ne.symm h0)

theorem foldl_termIdStep_get (targetTerms : List Term) :
    ∀ (S : List Term) (m0 : List (String × String)) (s : Term),
      s ∈ S → (S.map Term.id).Nodup →
      mapGet (S.foldl (termIdStep targetTerms) m0) s.id =
        (match targetTerms.find? (fun t => t.codename == s.codename) with
          | some t => some t.id
          | none => mapGet m0 s.id) := by
  intro S
  induction S with
  | nil => intro m0 s hs; cases hs
  | cons s0 rest ih =>
    intro m0 s hs hnd
    have hnd' : (rest.map Term.id).Nodup := (List.nodup_cons.mp hnd).2
    have h0notin : s0.id ∉ rest.map Term.id := (List.nodup_cons.mp hnd).1
    rcases List.mem_cons.mp hs with rfl | hs'
    · simp only [List.foldl_cons]
      have huntouched : ∀ t ∈ rest, t.id ≠ s.id := by
        intro t ht heq
        exact h0notin (heq ▸ List.mem_map_of_mem Term.id ht)
      rw [foldl_termIdStep_untouched targetTerms rest
        (termIdStep targetTerms m0 s) s.id huntouched]
      unfold termIdStep
      cases targetTerms.find? (fun t => t.codename == s.codename) with
      | none => rfl
      | some t => exact mapGet_mapSet_self m0 s.id t.id
    · simp only [List.foldl_cons]
      rw [ih (termIdStep targetTerms m0 s0) s hs' hnd']
      cases targetTerms.find? (fun t => t.codename == s.codename) with
      | none =>
        simp only
        have hne : s.id ≠ s0.id := by
          intro heq
          exact h0notin (heq ▸ List.mem_map_of_mem Term.id hs')
        unfold termIdStep
        cases targetTerms.find? (fun t => t.codename == s0.codename) with
        | none => rfl
        | some t => exact mapGet_mapSet_ne m0 s0.id t.id s.id hne
      | some t => rfl

theorem remapValues_fst (m : List (String × String)) (c : String)
    (vs : List ValueEntry) :
    (remapValues m c vs).1 = vs.filterMap (remapOne m) := by
  induction vs with
  | nil => rfl
  | cons v rest ih =>
    cases hv : v.id with
    | none => simp [remapValues, remapOne, hv, List.filterMap_cons, ih]
    | some s =>
      cases hs : s.isEmpty with
      | true => simp [remapValues, remapOne, hv, hs, List.filterMap_cons, ih]
      | false =>
        cases hm : mapGet m s with
        | none => simp [remapValues, remapOne, hv, hs, hm, List.filterMap_cons, ih]
        | some t =>
          cases ht : t.isEmpty with
          | true => simp [remapValues, remapOne, hv, hs, hm, ht, List.filterMap_cons, ih]
          | false => simp [remapValues, remapOne, hv, hs, hm, ht, List.filterMap_cons, ih]

theorem remapValues_warn (m : List (String × String)) (c : String)
    (vs : List ValueEntry) (v : ValueEntry) (s : String)
    (hv : v ∈ vs) (hid : v.id = some s) (hs : s.isEmpty = false)
    (hm : truthyOpt (mapGet m s) = false) :
    remapWarn s c ∈ (remapValues m c vs).2 := by
  induction vs with
  | nil => cases hv
  | cons w rest ih =>
    rcases List.mem_cons.mp hv with rfl | hv'
    · cases hmm : mapGet m s with
      | none => simp [remapValues, hid, hs, hmm]
      | some t =>
        have ht : t.isEmpty = true := by
          simpa [truthyOpt, hmm] using hm
        simp [remapValues, hid, hs, hmm, ht]
    · have hmem := ih hv'
      cases hw : w.id with
      | none => simpa [remapValues, hw] using hmem
      | some s' =>
        cases hs' : s'.isEmpty with
        | true => simpa [remapValues, hw, hs'] using hmem
        | false =>
          cases hm' : mapGet m s' with
          | none => simp [remapValues, hw, hs', hm']; right; exact hmem
          | some t' =>
            cases ht' : t'.isEmpty with
            | true => simp [remapValues, hw, hs', hm', ht']; right; exact hmem
            | false => simpa [remapValues, hw, hs', hm', ht'] using hmem

theorem processAsset_row_shape (oldId newId : String)
    (m : List (String × String)) (sourceTerms targetTerms : List Term)
    (assetsTarget : List Asset) (a : Asset) (row : ReportRow)
    (h : (processAsset oldId newId m sourceTerms targetTerms assetsTarget
        a).1 = some row) :
    ∃ tgt, assetsTarget.find? (fun t => t.codename == a.codename) = some tgt ∧
      row = rowOf oldId newId m sourceTerms targetTerms a tgt := by
  unfold processAsset at h
  cases hf : assetsTarget.find? (fun t => t.codename == a.codename) with
  | none => rw [hf] at h; cases h
  | some tgt =>
    rw [hf] at h
    by_cases he : (oldElementOf oldId a).value.isEmpty = true
    · simp [he] at h
    · simp [he] at h
      exact ⟨tgt, rfl, h.symm⟩

/-! ### Claim theorems -/

/-- Claim C4: after the report is produced there are exactly two
terminal outcomes.  An affirmative answer — the answer whose lowercasing
is `y`, matching the script's `(y/n)` prompt, so `y` in any case —
makes the commit phase run (one request per report row); any other
answer ends the run with exit code 0, zero requests, zero outcomes, and
the explicit log that no assets were updated. -/
theorem c4_confirmation_gate (rows : List ReportRow) (warns : List String)
    (answer : String) (fails : Nat → Bool) :
    (confirmProceeds answer = true →
      (afterReport rows warns answer fails).requests =
        rows.map (fun r => (r.targetAsset.id, r.updatedAssetPayload)) ∧
      (afterReport rows warns answer fails).exitCode = 0) ∧
    (confirmProceeds answer = false →
      (afterReport rows warns answer fails).requests = [] ∧
      (afterReport rows warns answer fails).outcomes = [] ∧
      (afterReport rows warns answer fails).messages = [abortMessage] ∧
      (afterReport rows warns answer fails).exitCode = 0) := by
  constructor
  · intro h
    simp [afterReport, h, commitLoop_fst]
  · intro h
    simp [afterReport, h]

/-- Claim C4 witness: `Y` (case-insensitive affirmative) proceeds and
issues the row's request; `no` aborts with exit code 0, no requests, no
outcomes, and the abort log. -/
theorem c4_confirmation_gate_witness :
    ((afterReport [c4Row] [] "Y" (fun _ => false)).requests =
        [c4Row].map (fun r => (r.targetAsset.id, r.updatedAssetPayload)) ∧
      (afterReport [c4Row] [] "Y" (fun _ => false)).exitCode = 0) ∧
    ((afterReport [c4Row] [] "no" (fun _ => false)).requests = [] ∧
      (afterReport [c4Row] [] "no" (fun _ => false)).outcomes = [] ∧
      (afterReport [c4Row] [] "no" (fun _ => false)).messages = [abortMessage] ∧
      (afterReport [c4Row] [] "no" (fun _ => false)).exitCode = 0) :=
  ⟨(c4_confirmation_gate [c4Row] [] "Y" (fun _ => false)).1 rfl,
    (c4_confirmation_gate [c4Row] [] "no" (fun _ => false)).2 rfl⟩

/-- Claim C5: when the operator confirms, the commit phase issues, for
every report row, exactly the (target asset id, payload) pair stored in
that row when the report was generated — the request list is pointwise
the rows' stored payloads, so nothing is recomputed between preview and
apply. -/
theorem c5_preview_commit_consistency (assetsSource assetsTarget : List Asset)
    (taxSource taxTarget : List TaxonomyGroup) (answer : String)
    (fails : Nat → Bool) (h : confirmProceeds answer = true) :
    (runPipeline assetsSource assetsTarget taxSource taxTarget answer fails).requests =
      (runPipeline assetsSource assetsTarget taxSource taxTarget answer
          fails).reportRows.map
        (fun r => (r.targetAsset.id, r.updatedAssetPayload)) := by
  unfold runPipeline
  split
  · rfl
  · split
    · rfl
    · split
      · split
        · rfl
        · simp [afterReport, h, commitLoop_fst]
      · rfl

/-- Claim C5 witness: a concrete confirmed run whose single request is
exactly the stored row payload. -/
theorem c5_preview_commit_consistency_witness :
    (runPipeline [c5Source] [c5Target] c5TaxSource c5TaxTarget "y"
        (fun _ => false)).requests =
      (runPipeline [c5Source] [c5Target] c5TaxSource c5TaxTarget "y"
          (fun _ => false)).reportRows.map
        (fun r => (r.targetAsset.id, r.updatedAssetPayload)) :=
  c5_preview_commit_consistency [c5Source] [c5Target] c5TaxSource c5TaxTarget
    "y" (fun _ => false) rfl

/-- Claim C6: for a source term of the flattened source set (term ids
being pairwise distinct, the environment-local uniqueness the tool
relies on), the term identity map binds the source term's id exactly
when some target term of the flattened target set has a codename
case-sensitively equal to the source term's codename, and the bound
value is the first such target term's id; with no match the source
term's id is absent from the map (`mapGet` is `none`). -/
theorem c6_term_id_map (sourceTerms targetTerms : List Term) (s : Term)
    (hs : s ∈ sourceTerms) (hnd : (sourceTerms.map Term.id).Nodup) :
    mapGet (buildTermIdMap sourceTerms targetTerms) s.id =
      (targetTerms.find? (fun t => t.codename == s.codename)).map Term.id := by
  unfold buildTermIdMap
  rw [foldl_termIdStep_get targetTerms sourceTerms [] s hs hnd]
  cases targetTerms.find? (fun t => t.codename == s.codename) with
  | none => rfl
  | some t => rfl

/-- Claim C6 witness: `red` has a codename match and is mapped to the
first matching target term's id; `legacy` has none and is absent. -/
theorem c6_term_id_map_witness :
    mapGet (buildTermIdMap c6SourceTerms c6TargetTerms)
        (Term.mk "s1" "red" "Red" .nil).id =
      (c6TargetTerms.find?
          (fun t => t.codename == (Term.mk "s1" "red" "Red" .nil).codename)).map
        Term.id ∧
    mapGet (buildTermIdMap c6SourceTerms c6TargetTerms)
        (Term.mk "s2" "legacy" "Legacy" .nil).id =
      (c6TargetTerms.find?
          (fun t => t.codename == (Term.mk "s2" "legacy" "Legacy" .nil).codename)).map
        Term.id ∧
    mapGet (buildTermIdMap c6SourceTerms c6TargetTerms)
        (Term.mk "s2" "legacy" "Legacy" .nil).id = none :=
  ⟨c6_term_id_map c6SourceTerms c6TargetTerms (Term.mk "s1" "red" "Red" .nil)
      (List.mem_cons_self _ _) (by decide),
    c6_term_id_map c6SourceTerms c6TargetTerms (Term.mk "s2" "legacy" "Legacy" .nil)
      (List.mem_cons.mpr (Or.inr (List.mem_cons_self _ _))) (by decide),
    rfl⟩

/-- Claim C7: the remapped value list is exactly the element-wise remap
that drops every entry whose id is falsy or has no truthy binding in the
term identity map (`filterMap remapOne`); consequently every entry of
the remapped list carries a truthy mapped target id (no entry is
retained as-is, none is replaced by a null or placeholder); and every
entry with a (truthy) id that has no binding in the map produces the
warning naming that term id and the asset codename. -/
theorem c7_unmapped_dropped (m : List (String × String)) (c : String)
    (vs : List ValueEntry) :
    (remapValues m c vs).1 = vs.filterMap (remapOne m) ∧
    (∀ w ∈ (remapValues m c vs).1, ∃ t, w.id = some t ∧ t.isEmpty = false) ∧
    (∀ v ∈ vs, ∀ s, v.id = some s → s.isEmpty = false → mapGet m s = none →
      remapWarn s c ∈ (remapValues m c vs).2) := by
  refine ⟨remapValues_fst m c vs, ?_, ?_⟩
  · intro w hw
    rw [remapValues_fst m c vs] at hw
    rcases List.mem_filterMap.mp hw with ⟨v, _, hone⟩
    cases hv : v.id with
    | none => simp [remapOne, hv] at hone
    | some s =>
      cases hs : s.isEmpty with
      | true => simp [remapOne, hv, hs] at hone
      | false =>
        cases hm : mapGet m s with
        | none => simp [remapOne, hv, hs, hm] at hone
        | some t =>
          cases ht : t.isEmpty with
          | true => simp [remapOne, hv, hs, hm, ht] at hone
          | false =>
            simp only [remapOne, hv, hs, hm, ht] at hone
            refine ⟨t, ?_, ht⟩
            simp at hone
            rw [← hone]
  · intro v hv s hid hs hm
    exact remapValues_warn m c vs v s hv hid hs (by simp [truthyOpt, hm])

/-- Claim C7 witness: `s1` is mapped, the unbound `sX` is dropped (the
remapped list is exactly the mapped entry) and warned with its term id
and the asset codename. -/
theorem c7_unmapped_dropped_witness :
    (remapValues [("s1", "t1")] "photo" [⟨some "s1"⟩, ⟨some "sX"⟩]).1 =
      [⟨some "s1"⟩, (⟨some "sX"⟩ : ValueEntry)].filterMap
        (remapOne [("s1", "t1")]) ∧
    remapWarn "sX" "photo" ∈
      (remapValues [("s1", "t1")] "photo" [⟨some "s1"⟩, ⟨some "sX"⟩]).2 :=
  ⟨(c7_unmapped_dropped [("s1", "t1")] "photo" [⟨some "s1"⟩, ⟨some "sX"⟩]).1,
    (c7_unmapped_dropped [("s1", "t1")] "photo"
        [⟨some "s1"⟩, ⟨some "sX"⟩]).2.2
      ⟨some "sX"⟩ (by simp) "sX" rfl rfl rfl⟩

/-- Claim C8: the commit loop attempts one request per report row
regardless of failures — the request list is exactly the rows' stored
payloads (no failure stops, skips, or rolls back any other request) —
and the outcome at position k is the row's source codename paired with
success exactly when the transport did not fail request k, so each
outcome depends only on its own request's failure. -/
theorem c8_failure_isolation (rows : List ReportRow) (fails : Nat → Bool) :
    (commitLoop fails rows 0).1 =
      rows.map (fun r => (r.targetAsset.id, r.updatedAssetPayload)) ∧
    ∀ k : Nat,
      (commitLoop fails rows 0).2.get? k =
        (rows.get? k).map (fun r => (r.sourceAsset.codename, !fails k)) := by
  refine ⟨commitLoop_fst fails rows 0, fun k => ?_⟩
  simpa using commitLoop_snd_get? fails rows 0 k

/-- Claim C10: when the fetched asset list of either environment is
empty, the run ends with exit code 1 before the report is written and
before any update is attempted — empty report-row list, empty request
list — never as a successful no-op (exit code 0). -/
theorem c10_empty_environment_fatal (assetsSource assetsTarget : List Asset)
    (taxSource taxTarget : List TaxonomyGroup) (answer : String)
    (fails : Nat → Bool) (h : assetsSource = [] ∨ assetsTarget = []) :
    (runPipeline assetsSource assetsTarget taxSource taxTarget answer
        fails).exitCode = 1 ∧
    (runPipeline assetsSource assetsTarget taxSource taxTarget answer
        fails).reportWritten = false ∧
    (runPipeline assetsSource assetsTarget taxSource taxTarget answer
        fails).reportRows = [] ∧
    (runPipeline assetsSource assetsTarget taxSource taxTarget answer
        fails).requests = [] := by
  have : runPipeline assetsSource assetsTarget taxSource taxTarget answer
      fails = fatalResult := by
    rcases h with h | h
    · subst h; rfl
    · subst h
      cases assetsSource with
      | nil => rfl
      | cons a rest => rfl
  rw [this]
  exact ⟨rfl, rfl, rfl, rfl⟩

/-- Claim C10 witness: the run on two empty environments is fatal with
exit code 1, no report and no requests. -/
theorem c10_empty_environment_fatal_witness :
    (runPipeline [] [] [] [] "y" (fun _ => false)).exitCode = 1 ∧
    (runPipeline [] [] [] [] "y" (fun _ => false)).reportWritten = false ∧
    (runPipeline [] [] [] [] "y" (fun _ => false)).reportRows = [] ∧
    (runPipeline [] [] [] [] "y" (fun _ => false)).requests = [] :=
  c10_empty_environment_fatal [] [] [] [] "y" (fun _ => false) (Or.inl rfl)

/-- Claim C1 counterexample: a source asset whose only value entry is
unmapped (the target taxonomy is empty, so remapping produces the empty
value list) still produces a report row — with codename `photo` and an
empty pending value list — and its update request is still issued on
confirmation, refuting the claim that such a no-op asset appears in
neither the report row list nor the commit loop. -/
theorem c1_counterexample :
    (runPipeline [c1Source] [c1Target] c1TaxSource [] "y"
        (fun _ => false)).reportRows.map
      (fun r => (r.sourceAsset.codename,
        r.updatedAssetPayload.elements.map (fun e => e.value))) =
      [("photo", [[]])] ∧
    (runPipeline [c1Source] [c1Target] c1TaxSource [] "y"
        (fun _ => false)).requests.map (fun p => p.1) = ["tgt-asset-1"] := by
  exact ⟨by decide, by decide⟩

/-- Claim C1 (amended): a source asset produces no report row exactly
when it has no target asset with the same codename or its source old
element's value list is empty *before* remapping; the skip tests the
source value list, not the remapped one, so an asset whose every entry
fails to remap still produces a row (and is committed).  Exclusion from
the report also excludes the asset from the commit phase, which iterates
exactly the report rows. -/
theorem c1_noop_exclusion_characterized (oldId newId : String)
    (m : List (String × String)) (sourceTerms targetTerms : List Term)
    (assetsTarget : List Asset) (a : Asset) :
    (processAsset oldId newId m sourceTerms targetTerms assetsTarget a).1 =
        none ↔
      (assetsTarget.find? (fun t => t.codename == a.codename) = none ∨
        (oldElementOf oldId a).value = []) := by
  cases hf : assetsTarget.find? (fun t => t.codename == a.codename) with
  | none => simp [processAsset, hf]
  | some tgt =>
    by_cases he : (oldElementOf oldId a).value.isEmpty = true
    · simp [processAsset, hf, he, List.isEmpty_iff.mp he]
    · have : (oldElementOf oldId a).value ≠ [] := by
        intro hnil
        exact he (by simp [hnil])
      simp [processAsset, hf, he, this]

/-- Claim C2 counterexample: the target asset has a second element `e2`
untouched by the remapping pass, yet the update payload's `elements`
contains it unchanged next to the replaced element — the payload is the
full original element list with one replacement, not the remapped
subset, refuting the claim that untouched elements are excluded. -/
theorem c2_counterexample :
    (runPipeline [c2Source] [c2Target] c2TaxSource c2TaxTarget "n"
        (fun _ => false)).reportRows.map
      (fun r => r.updatedAssetPayload.elements) =
      [[⟨⟨"e1"⟩, [⟨some "t1"⟩]⟩, ⟨⟨"e2"⟩, [⟨some "t7"⟩]⟩]] ∧
    ([⟨⟨"e1"⟩, [⟨some "t1"⟩]⟩, ⟨⟨"e2"⟩, [⟨some "t7"⟩]⟩] : List AssetElement) ≠
      [⟨⟨"e1"⟩, [⟨some "t1"⟩]⟩] := by
  exact ⟨by decide, by decide⟩

/-- Claim C2 (amended): for every paired (source, target) asset that
produces a report row, the update payload's `elements` is the target
asset's *full original* element list in which every element whose id is
`NEW_ELEMENT_ID` is replaced by the remapped element and every other
element is included unchanged — not a remapped subset. -/
theorem c2_payload_full_replacement (oldId newId : String)
    (m : List (String × String)) (sourceTerms targetTerms : List Term)
    (assetsTarget : List Asset) (a : Asset) (row : ReportRow)
    (h : (processAsset oldId newId m sourceTerms targetTerms assetsTarget
        a).1 = some row) :
    row.updatedAssetPayload.elements =
      row.targetAsset.elements.map
        (fun el => if el.element.id == newId
          then newElementOf oldId newId m row.sourceAsset else el) := by
  rcases processAsset_row_shape oldId newId m sourceTerms targetTerms
    assetsTarget a row h with ⟨tgt, _, rfl⟩
  rfl

/-- Claim C2 witness: a concrete produced row whose payload elements are
the full target element list with the `e1` element replaced. -/
theorem c2_payload_full_replacement_witness :
    c2Row.updatedAssetPayload.elements =
      c2Row.targetAsset.elements.map
        (fun el => if el.element.id == "e1"
          then newElementOf "e1" "e1"
            (buildTermIdMap (flattenTerms c2TaxSource)
              (flattenTerms c2TaxTarget)) c2Row.sourceAsset
          else el) :=
  c2_payload_full_replacement "e1" "e1"
    (buildTermIdMap (flattenTerms c2TaxSource) (flattenTerms c2TaxTarget))
    (flattenTerms c2TaxSource) (flattenTerms c2TaxTarget) [c2Target] c2Source
    c2Row rfl

/-- Claim C3 counterexample: the source asset carries a second element
`e2` whose value `s2` *is* remappable (the identity map sends it to
`t2`), yet the committed payload keeps the target's original `e2` value
`t9` untouched — the remapper never processes source elements other than
the one with the extracted `OLD_ELEMENT_ID`, and never matches a source
element to the target by the source element's own id, refuting the
claim that every source element is processed with id-based matching. -/
theorem c3_counterexample :
    (runPipeline [c3Source] [c3Target] c3TaxSource c3TaxTarget "n"
        (fun _ => false)).reportRows.map
      (fun r => r.updatedAssetPayload.elements) =
      [[⟨⟨"e1"⟩, [⟨some "t1"⟩]⟩, ⟨⟨"e2"⟩, [⟨some "t9"⟩]⟩]] ∧
    (remapValues
        (buildTermIdMap (flattenTerms c3TaxSource) (flattenTerms c3TaxTarget))
        "photo3" [⟨some "s2"⟩]).1 = [⟨some "t2"⟩] ∧
    ([⟨some "t9"⟩] : List ValueEntry) ≠ [⟨some "t2"⟩] := by
  exact ⟨by decide, by decide, by decide⟩

/-- Claim C3 (amended): only the single source element whose id equals
the extracted `OLD_ELEMENT_ID` is consulted: apart from the stored copy
of the source asset itself, the produced row (target pairing, all three
name lists, the update payload) and the warnings depend on the source
asset only through its codename and its first element with that id, so
source elements with any other id are ignored rather than matched by
their own ids against the target; the replacement element on the target
side is the one whose id equals the extracted `NEW_ELEMENT_ID`. -/
theorem c3_single_element_processed (oldId newId : String)
    (m : List (String × String)) (sourceTerms targetTerms : List Term)
    (assetsTarget : List Asset) (a a' : Asset)
    (hcn : a.codename = a'.codename)
    (hfind : a.elements.find? (fun e => e.element.id == oldId) =
      a'.elements.find? (fun e => e.element.id == oldId)) :
    ((processAsset oldId newId m sourceTerms targetTerms assetsTarget a).1.map
        (fun r => (r.targetAsset, r.sourceTaxonomyNames,
          r.existingTargetTaxonomyNames, r.targetTaxonomyNamesPending,
          r.updatedAssetPayload))) =
      ((processAsset oldId newId m sourceTerms targetTerms assetsTarget
          a').1.map
        (fun r => (r.targetAsset, r.sourceTaxonomyNames,
          r.existingTargetTaxonomyNames, r.targetTaxonomyNamesPending,
          r.updatedAssetPayload))) ∧
    (processAsset oldId newId m sourceTerms targetTerms assetsTarget a).2 =
      (processAsset oldId newId m sourceTerms targetTerms assetsTarget a').2 := by
  have hold : oldElementOf oldId a = oldElementOf oldId a' := by
    simp [oldElementOf, hfind]
  have hnew : newElementOf oldId newId m a = newElementOf oldId newId m a' := by
    simp [newElementOf, hold, hcn]
  have hfind2 : assetsTarget.find? (fun t => t.codename == a.codename) =
      assetsTarget.find? (fun t => t.codename == a'.codename) := by rw [hcn]
  unfold processAsset
  rw [hfind2, hold]
  cases hf : assetsTarget.find? (fun t => t.codename == a'.codename) with
  | none => exact ⟨rfl, by rw [hcn]⟩
  | some tgt =>
    by_cases he : (oldElementOf oldId a').value.isEmpty = true
    · simp [he]
    · simp only [he, if_false, Bool.false_eq_true]
      constructor
      · simp only [Option.map_some', rowOf, payloadOf]
        rw [hold, hnew]
      · rw [hcn]

/-- Claim C3 witness: appending an extra element `e3` to the source
asset changes none of the produced row's observable fields nor the
warnings. -/
theorem c3_single_element_processed_witness :
    ((processAsset "e1" "e1"
        (buildTermIdMap (flattenTerms c3TaxSource) (flattenTerms c3TaxTarget))
        (flattenTerms c3TaxSource) (flattenTerms c3TaxTarget) [c3Target]
        c3Source).1.map
      (fun r => (r.targetAsset, r.sourceTaxonomyNames,
        r.existingTargetTaxonomyNames, r.targetTaxonomyNamesPending,
        r.updatedAssetPayload))) =
      ((processAsset "e1" "e1"
          (buildTermIdMap (flattenTerms c3TaxSource)
            (flattenTerms c3TaxTarget))
          (flattenTerms c3TaxSource) (flattenTerms c3TaxTarget) [c3Target]
          c3SourceExtra).1.map
        (fun r => (r.targetAsset, r.sourceTaxonomyNames,
          r.existingTargetTaxonomyNames, r.targetTaxonomyNamesPending,
          r.updatedAssetPayload))) ∧
    (processAsset "e1" "e1"
        (buildTermIdMap (flattenTerms c3TaxSource) (flattenTerms c3TaxTarget))
        (flattenTerms c3TaxSource) (flattenTerms c3TaxTarget) [c3Target]
        c3Source).2 =
      (processAsset "e1" "e1"
          (buildTermIdMap (flattenTerms c3TaxSource)
            (flattenTerms c3TaxTarget))
          (flattenTerms c3TaxSource) (flattenTerms c3TaxTarget) [c3Target]
          c3SourceExtra).2 :=
  c3_single_element_processed "e1" "e1"
    (buildTermIdMap (flattenTerms c3TaxSource) (flattenTerms c3TaxTarget))
    (flattenTerms c3TaxSource) (flattenTerms c3TaxTarget) [c3Target]
    c3Source c3SourceExtra rfl rfl

/-- Claim C9: for every produced row, the update payload preserves every
asset field other than `elements` (id, codename, url), keeps the element
count, and at every position keeps the target's original element
unchanged when its element id differs from `NEW_ELEMENT_ID`, replacing
exactly the positions whose element id equals it. -/
theorem c9_frame_preservation (oldId newId : String)
    (m : List (String × String)) (sourceTerms targetTerms : List Term)
    (assetsTarget : List Asset) (a : Asset) (row : ReportRow)
    (h : (processAsset oldId newId m sourceTerms targetTerms assetsTarget
        a).1 = some row) :
    row.updatedAssetPayload.id = row.targetAsset.id ∧
    row.updatedAssetPayload.codename = row.targetAsset.codename ∧
    row.updatedAssetPayload.url = row.targetAsset.url ∧
    row.updatedAssetPayload.elements.length =
      row.targetAsset.elements.length ∧
    ∀ (k : Nat) (hk : k < row.targetAsset.elements.length),
      row.updatedAssetPayload.elements.get? k =
        some (if (row.targetAsset.elements.get ⟨k, hk⟩).element.id == newId
          then newElementOf oldId newId m row.sourceAsset
          else row.targetAsset.elements.get ⟨k, hk⟩) := by
  rcases processAsset_row_shape oldId newId m sourceTerms targetTerms
    assetsTarget a row h with ⟨tgt, _, rfl⟩
  refine ⟨rfl, rfl, rfl, by simp [rowOf, payloadOf], ?_⟩
  intro k hk
  simp only [rowOf, payloadOf] at hk ⊢
  rw [List.get?_map, List.get?_eq_get hk]
  rfl

/-- Claim C9 witness: in a concrete produced row, position 0 (the `e1`
element) is replaced and position 1 (the `e2` element) is the target's
original element. -/
theorem c9_frame_preservation_witness :
    c9Row.updatedAssetPayload.id = c9Row.targetAsset.id ∧
    c9Row.updatedAssetPayload.codename = c9Row.targetAsset.codename ∧
    c9Row.updatedAssetPayload.url = c9Row.targetAsset.url ∧
    c9Row.updatedAssetPayload.elements.length =
      c9Row.targetAsset.elements.length ∧
    ∀ (k : Nat) (hk : k < c9Row.targetAsset.elements.length),
      c9Row.updatedAssetPayload.elements.get? k =
        some (if (c9Row.targetAsset.elements.get ⟨k, hk⟩).element.id == "e1"
          then newElementOf "e1" "e1" [("s1", "t1")] c9Row.sourceAsset
          else c9Row.targetAsset.elements.get ⟨k, hk⟩) :=
  c9_frame_preservation "e1" "e1" [("s1", "t1")] [] [] [c9Target] c9Source
    c9Row rfl

end AssetTaxonomyRemap
